import Mathlib

/-!
Verification of the `SyncClient` synchronous-stream adapter from
`src/SyncClient_Impl.h` (Teensy41_AsyncTCP).

The adapter is shallowly embedded: buffers (`std::vector<uint8_t>`) become
`List Nat`, `size_t` arithmetic becomes `Nat` (C++ computes the same guarded
subtractions, e.g. `(_tx_buffer_size > buffered) ? (_tx_buffer_size - buffered) : 0`
is exactly truncated subtraction), the nullable `AsyncClient*` becomes
`Option AsyncClient`, and the heap-allocated shared counter `int* _ref`
becomes `Option Int`.

The external `AsyncClient` connection handle is not part of `src/`; the spec
treats it as an external collaborator with a fixed contract (queries
`connected`/`canSend`/`space`, a non-blocking `write` returning the number of
bytes actually accepted, `ack`, `close`, `abort`, callback registration).  It
is modelled here as a small state record whose `write` consumes send-window
space and whose per-call accepted amounts are driven by an arbitrary
`acceptPlan`, so every theorem quantifies over all transport behaviours
allowed by that contract.

Busy-wait loops (`while (connected() && !_client->canSend()) delay(0);`) are
modelled by consuming a script of asynchronous events (`Event`), each being
one of the callbacks the source registers; exhausting the script while still
blocked models divergence and surfaces as `none`.
-/

/-- Model of the external `AsyncClient` connection handle, per its use sites
in `SyncClient_Impl.h` and the contract stated for it in the design document:
`isConn` answers `connected()`, `space` answers `space()` (and `canSend()` is
the possibility of sending now), `write` hands bytes to the transport and
returns how many were accepted (at most the requested amount and at most
`space`; the exact amount on each successive call is driven by `acceptPlan`),
`ack n` advances the advertised receive window, `close`/`abort` terminate.
`cbOnData`/`cbOnAck`/`cbOnPoll` record which callbacks are attached. -/
structure AsyncClient where
  isConn : Bool
  space : Nat
  acceptPlan : List Nat
  sentBytes : List Nat
  acked : Nat
  ackLaterFlag : Bool
  closedNow : Bool
  aborted : Bool
  cbOnData : Bool
  cbOnAck : Bool
  cbOnPoll : Bool
  deriving Repr, DecidableEq

/-- `canSend()`: the transport can currently accept data (connected with a
non-empty send window). -/
def AsyncClient.canSend (c : AsyncClient) : Bool :=
  c.isConn && decide (0 < c.space)

/-- `write(bytes, len, copyFlag)`: non-blocking transport write.  Accepts
`min (min len space) planned` bytes where `planned` is the head of the
accept plan (defaulting to everything requested), appends the accepted bytes
to the transport's sent trace, and consumes that much send-window space. -/
def AsyncClient.write (c : AsyncClient) (bytes : List Nat) : AsyncClient × Nat :=
  let planned := c.acceptPlan.headD bytes.length
  let accepted := min (min bytes.length c.space) planned
  ({ c with
      space := c.space - accepted
      sentBytes := c.sentBytes ++ bytes.take accepted
      acceptPlan := c.acceptPlan.drop 1 }, accepted)

/-- `ack(n)`: advance the advertised receive window by `n` bytes. -/
def AsyncClient.ack (c : AsyncClient) (n : Nat) : AsyncClient :=
  { c with acked := c.acked + n }

/-- `close(now)`: request connection close. -/
def AsyncClient.close (c : AsyncClient) : AsyncClient :=
  { c with closedNow := true }

/-- `abort()`: abort the connection. -/
def AsyncClient.abort (c : AsyncClient) : AsyncClient :=
  { c with aborted := true, isConn := false }

/-- `ackLater()`: defer the automatic receive-window acknowledgment. -/
def AsyncClient.ackLater (c : AsyncClient) : AsyncClient :=
  { c with ackLaterFlag := true }

/-- Detaching the data/ack/poll callbacks (`onData(NULL, NULL)` etc. in
`SyncClient::_release`). -/
def AsyncClient.detachCallbacks (c : AsyncClient) : AsyncClient :=
  { c with cbOnData := false, cbOnAck := false, cbOnPoll := false }

/-- `_attachCallbacks_AfterConnected()`: attach the ack and data callbacks. -/
def AsyncClient.attachAfterConnected (c : AsyncClient) : AsyncClient :=
  { c with cbOnData := true, cbOnAck := true }

/-- The `SyncClient` adapter state: nullable connection handle, TX buffer
(`std::vector` plus consumption cursor `_tx_buffer_head` and configured
capacity `_tx_buffer_size`), RX buffer plus cursor, and the lazily allocated
shared reference counter `int* _ref`. -/
structure SyncClient where
  client : Option AsyncClient
  tx_buffer : List Nat
  tx_buffer_head : Nat
  tx_buffer_size : Nat
  rx_buffer : List Nat
  rx_buffer_head : Nat
  refCount : Option Int
  deriving Repr, DecidableEq

/-- `connected()`: `_client != NULL && _client->connected()`. -/
def SyncClient.connected (s : SyncClient) : Bool :=
  match s.client with
  | none => false
  | some c => c.isConn

/-- `_client->canSend()` guarded by the null check the call sites provide. -/
def SyncClient.clientCanSend (s : SyncClient) : Bool :=
  match s.client with
  | none => false
  | some c => c.canSend

/-- `status()`: `0` when unbound, else the handle's state (the model keeps
only the connected bit of `state()`). -/
def SyncClient.status (s : SyncClient) : Nat :=
  match s.client with
  | none => 0
  | some c => if c.isConn then 1 else 0

/-- `ref()`: lazily allocate the shared counter (initialised to `0`; a failed
allocation returns `-1`), then pre-increment and return the new count. -/
def SyncClient.ref (s : SyncClient) (allocOk : Bool) : SyncClient × Int :=
  match s.refCount with
  | none =>
    if allocOk then ({ s with refCount := some 1 }, 1)
    else (s, -1)
  | some n => ({ s with refCount := some (n + 1) }, n + 1)

/-- `unref()`: `-1` when the counter was never allocated; otherwise
pre-decrement, and free the counter exactly when the result is `0`. -/
def SyncClient.unref (s : SyncClient) : SyncClient × Int :=
  match s.refCount with
  | none => (s, -1)
  | some n =>
    if n - 1 = 0 then ({ s with refCount := none }, 0)
    else ({ s with refCount := some (n - 1) }, n - 1)

/-- `_release()`: when a handle is bound, detach its data/ack/poll callbacks,
abort it and drop the reference; clear both buffers and cursors.  The second
component is the (externally owned) handle as `_release` left it, so the
detach/abort effects stay observable after the reference is dropped. -/
def SyncClient._release (s : SyncClient) : SyncClient × Option AsyncClient :=
  ({ s with
      client := none
      tx_buffer := [], tx_buffer_head := 0
      rx_buffer := [], rx_buffer_head := 0 },
   s.client.map fun c => c.detachCallbacks.abort)

/-- `~SyncClient()`: `if (0 == unref()) _release();`. -/
def SyncClient.destruct (s : SyncClient) : SyncClient × Option AsyncClient :=
  let r := s.unref
  if r.2 = 0 then r.1._release else (r.1, none)

/-- `SyncClient(size_t txBufLen)`: empty buffers, no handle, then `ref()`
(whose allocation may fail, signalled by `allocOk`). -/
def SyncClient.init (txBufLen : Nat) (allocOk : Bool) : SyncClient :=
  (SyncClient.ref
    { client := none
      tx_buffer := [], tx_buffer_head := 0, tx_buffer_size := txBufLen
      rx_buffer := [], rx_buffer_head := 0
      refCount := none } allocOk).1

/-- `_onConnect(c)`: adopt the handle, reset the TX buffer (clear, cursor 0,
re-reserve capacity — reservation has no observable effect on contents) and
attach the post-connect callbacks. -/
def SyncClient._onConnect (s : SyncClient) (c : AsyncClient) : SyncClient :=
  { s with
      client := some c.attachAfterConnected
      tx_buffer := [], tx_buffer_head := 0 }

/-- `_onDisconnect()`: drop the connection reference and discard the TX
buffer; the RX buffer is deliberately left alone. -/
def SyncClient._onDisconnect (s : SyncClient) : SyncClient :=
  { s with client := none, tx_buffer := [], tx_buffer_head := 0 }

/-- `_onData(data, len)`: `ackLater()` then append the incoming bytes to the
RX buffer; if the append allocation fails (`allocOk = false`), abort the
connection instead of truncating the stream. -/
def SyncClient._onData (s : SyncClient) (bytes : List Nat) (allocOk : Bool) :
    SyncClient :=
  match s.client with
  | none => s
  | some c =>
    if allocOk then
      { s with client := some c.ackLater, rx_buffer := s.rx_buffer ++ bytes }
    else
      { s with client := some c.ackLater.abort }

/-- The mutable state of the `while` loop inside `_sendBuffer`. -/
structure SendLoopSt where
  cl : AsyncClient
  tx : List Nat
  head : Nat
  total : Nat
  deriving Repr, DecidableEq

/-- The amount one `_sendBuffer` loop iteration attempts to push: the unsent
span `available = size − head`, clamped to the connection's reported send
window (`if (sendable < available) available = sendable;`). -/
def sendClamp (c : AsyncClient) (tx : List Nat) (head : Nat) : Nat :=
  if c.space < tx.length - head then c.space else tx.length - head

/-- The loop of `_sendBuffer`: while `connected() && canSend() && head < size`,
clamp the unsent span to the send window, hand it to the transport, advance
`head` by the accepted amount, accumulate the total, break on a short accept,
and reset the buffer to empty when `head` reaches `size` (in the source the
reset is followed by re-testing the loop condition, which then fails, so a
direct return is the same state). -/
def sendLoop : Nat → SendLoopSt → SendLoopSt
  | 0, st => st
  | fuel + 1, st =>
    if st.cl.isConn && st.cl.canSend && decide (st.head < st.tx.length) then
      let w := st.cl.write ((st.tx.drop st.head).take (sendClamp st.cl st.tx st.head))
      if w.2 ≠ sendClamp st.cl st.tx st.head then
        { cl := w.1, tx := st.tx, head := st.head + w.2, total := st.total + w.2 }
      else if st.head + w.2 = st.tx.length then
        { cl := w.1, tx := [], head := 0, total := st.total + w.2 }
      else
        sendLoop fuel { cl := w.1, tx := st.tx, head := st.head + w.2,
                        total := st.total + w.2 }
    else st

/-- `_sendBuffer()`: `0` when unbound, not connected, no send window, or no
unsent bytes; otherwise run the drain loop (the fuel `size + 2` exceeds the
loop's iteration count, which is bounded by the unsent byte count since every
continuing iteration accepts at least one byte) and return the total handed
to the transport. -/
def SyncClient._sendBuffer (s : SyncClient) : SyncClient × Nat :=
  match s.client with
  | none => (s, 0)
  | some c =>
    if !s.connected || !c.canSend || decide (s.tx_buffer_head ≥ s.tx_buffer.length) then
      (s, 0)
    else
      let r := sendLoop (s.tx_buffer.length + 2)
        { cl := c, tx := s.tx_buffer, head := s.tx_buffer_head, total := 0 }
      ({ s with client := some r.cl, tx_buffer := r.tx, tx_buffer_head := r.head },
       r.total)

/-- An asynchronous event that may fire while a blocking call yields
(`delay(0)`): the transport acknowledges sent data and reopens the send
window (whereupon the registered `onAck` callback runs `_sendBuffer()`),
data arrives (`_onData`, whose RX append may fail to allocate), or the
connection drops (`_onDisconnect`). -/
inductive Event where
  | ackEv (newSpace : Nat)
  | dataEv (bytes : List Nat) (allocOk : Bool)
  | discEv
  deriving Repr, DecidableEq

/-- Apply one asynchronous event to the adapter. -/
def SyncClient.applyEvent (s : SyncClient) (e : Event) : SyncClient :=
  match e with
  | .discEv => s._onDisconnect
  | .dataEv bytes allocOk => s._onData bytes allocOk
  | .ackEv newSpace =>
    match s.client with
    | none => s
    | some c =>
      (SyncClient._sendBuffer { s with client := some { c with space := newSpace } }).1

/-- The busy-wait `while (connected() && !_client->canSend()) delay(0);`
from `write`/`flush`: each yield lets one pending event run; running out of
events while still blocked models the loop never terminating (`none`). -/
def SyncClient.busyWait : SyncClient → List Event → Option (SyncClient × List Event)
  | s, [] =>
    if s.connected && !s.clientCanSend then none else some (s, [])
  | s, e :: rest =>
    if s.connected && !s.clientCanSend then SyncClient.busyWait (s.applyEvent e) rest
    else some (s, e :: rest)

/-- The code after `write`'s loop: one opportunistic drain if the connection
currently reports send capacity, then return the byte count. -/
def SyncClient.writeTail (s : SyncClient) (evs : List Event) (written : Nat) :
    SyncClient × List Event × Nat :=
  if s.connected && s.clientCanSend then ((s._sendBuffer).1, evs, written)
  else (s, evs, written)

/-- The `while (written < len)` loop of `write(data, len)`: compute the free
TX space `capacity − buffered` (the source's guarded subtraction is `Nat`
subtraction); when full, busy-wait for the send window (returning `written`
if disconnected mid-wait), drain, and stop accepting input if still full;
otherwise copy `min(space, len − written)` caller bytes into the TX buffer.
Every continuing iteration copies at least one byte, so fuel `len + 1`
suffices; `none` models divergence inside the busy-wait. -/
def SyncClient.writeLoop :
    Nat → SyncClient → List Event → List Nat → Nat →
    Option (SyncClient × List Event × Nat)
  | 0, _, _, _, _ => none
  | fuel + 1, s, evs, data, written =>
    if written < data.length then
      let buffered := s.tx_buffer.length - s.tx_buffer_head
      let space := s.tx_buffer_size - buffered
      if space = 0 then
        match s.busyWait evs with
        | none => none
        | some (s1, evs1) =>
          if !s1.connected then some (s1, evs1, written)
          else
            let s2 := (s1._sendBuffer).1
            let buffered2 := s2.tx_buffer.length - s2.tx_buffer_head
            let space2 := s2.tx_buffer_size - buffered2
            if space2 = 0 then some (s2.writeTail evs1 written)
            else
              let toCopy := min space2 (data.length - written)
              SyncClient.writeLoop fuel
                { s2 with tx_buffer := s2.tx_buffer ++ (data.drop written).take toCopy }
                evs1 data (written + toCopy)
      else
        let toCopy := min space (data.length - written)
        SyncClient.writeLoop fuel
          { s with tx_buffer := s.tx_buffer ++ (data.drop written).take toCopy }
          evs data (written + toCopy)
    else some (s.writeTail evs written)

/-- `write(data, len)`: `0` immediately when unbound or not connected,
otherwise the buffering loop above. -/
def SyncClient.write (s : SyncClient) (data : List Nat) (evs : List Event) :
    Option (SyncClient × List Event × Nat) :=
  if s.client.isNone || !s.connected then some (s, evs, 0)
  else SyncClient.writeLoop (data.length + 1) s evs data 0

/-- `available()`: `size(RxBuffer) − head(RxBuffer)` as an `int`. -/
def SyncClient.available (s : SyncClient) : Int :=
  ((s.rx_buffer.length - s.rx_buffer_head : Nat) : Int)

/-- `peek()`: the next unread byte, or `-1` when none. -/
def SyncClient.peek (s : SyncClient) : Int :=
  if s.rx_buffer_head ≥ s.rx_buffer.length then -1
  else (s.rx_buffer.getD s.rx_buffer_head 0 : Int)

/-- `read(data, len)`: `-1` when nothing is buffered; otherwise copy
`min(len, available)` bytes out, advance the cursor, compact to empty when
fully drained, and `ack` the consumed count iff a byte was consumed and the
adapter is still connected.  Returns (new state, return value, bytes copied
to the caller's buffer). -/
def SyncClient.read (s : SyncClient) (len : Nat) : SyncClient × Int × List Nat :=
  let avail := s.rx_buffer.length - s.rx_buffer_head
  if avail = 0 then (s, -1, [])
  else
    let toRead := min len avail
    let out := (s.rx_buffer.drop s.rx_buffer_head).take toRead
    let s1 :=
      if s.rx_buffer_head + toRead = s.rx_buffer.length then
        { s with rx_buffer := [], rx_buffer_head := 0 }
      else { s with rx_buffer_head := s.rx_buffer_head + toRead }
    let s2 :=
      if 0 < toRead ∧ s1.connected then
        match s1.client with
        | none => s1
        | some c => { s1 with client := some (c.ack toRead) }
      else s1
    (s2, (toRead : Int), out)

/-- `read()` (single byte): `-1` unless `read(&res, 1)` returns `1`, else the
byte value. -/
def SyncClient.read1 (s : SyncClient) : SyncClient × Int :=
  let r := s.read 1
  if r.2.1 ≠ 1 then (r.1, -1) else (r.1, ((r.2.2.headD 0 : Nat) : Int))

/-- `stop(maxWaitMs)`: `(void)maxWaitMs;` then `close(true)` on the handle
when one is bound; always reports `true`. -/
def SyncClient.stop (s : SyncClient) (maxWaitMs : Nat) : SyncClient × Bool :=
  match s.client with
  | none => (s, true)
  | some c => ({ s with client := some c.close }, true)

/-- `flush(maxWaitMs)`: `(void)maxWaitMs;` failure when unbound or not
connected; when unsent bytes remain, busy-wait for the send window, fail if
the handle vanished, drain once; report whether the TX buffer is drained. -/
def SyncClient.flush (s : SyncClient) (maxWaitMs : Nat) (evs : List Event) :
    Option (SyncClient × List Event × Bool) :=
  if s.client.isNone || !s.connected then some (s, evs, false)
  else if s.tx_buffer_head < s.tx_buffer.length then
    match s.busyWait evs with
    | none => none
    | some (s1, evs1) =>
      if s1.client.isNone then some (s1, evs1, false)
      else
        let s2 := (s1._sendBuffer).1
        some (s2, evs1, s2.tx_buffer_head == s2.tx_buffer.length)
  else some (s, evs, s.tx_buffer_head == s.tx_buffer.length)

/-- The TX-buffer invariant: the cursor never passes the end, and the
buffered-unsent span never exceeds the configured capacity. -/
def TxInv (s : SyncClient) : Prop :=
  s.tx_buffer_head ≤ s.tx_buffer.length ∧
  s.tx_buffer.length - s.tx_buffer_head ≤ s.tx_buffer_size

/-! ## Sample states used by witnesses -/

/-- A connected transport handle with a 4-byte send window. -/
def connA : AsyncClient :=
  { isConn := true, space := 4, acceptPlan := [], sentBytes := [], acked := 0,
    ackLaterFlag := false, closedNow := false, aborted := false,
    cbOnData := true, cbOnAck := true, cbOnPoll := false }

/-- A bound, connected adapter with buffered TX and RX data. -/
def stRx : SyncClient :=
  { client := some connA, tx_buffer := [1, 2, 3], tx_buffer_head := 1,
    tx_buffer_size := 4, rx_buffer := [7, 8, 9], rx_buffer_head := 1,
    refCount := some 1 }

/-- Same adapter with an empty RX buffer. -/
def stRxEmpty : SyncClient := { stRx with rx_buffer := [], rx_buffer_head := 0 }

/-- Same adapter whose shared counter was never allocated. -/
def stNoRef : SyncClient := { stRx with refCount := none }

/-! ## Helper lemmas about `read` -/

/-- The head of the first dropped-then-taken byte is the byte at the cursor. -/
lemma drop_take_one_headD :
    ∀ (l : List Nat) (n : Nat), n < l.length →
      ((l.drop n).take 1).headD 0 = l.getD n 0
  | [], n, h => absurd h (by simp)
  | _ :: _, 0, _ => rfl
  | _ :: t, n + 1, h => drop_take_one_headD t n (by simpa using h)

/-- Full characterisation of one `read(data, len)` call on a non-empty RX
buffer: the return value and copied bytes, the compact-or-advance cursor
update, and the connection handle being acked exactly when a byte was
consumed while connected. -/
lemma read_state_spec (s : SyncClient) (len : Nat)
    (h : s.rx_buffer.length - s.rx_buffer_head ≠ 0) :
    (s.read len).2.1 =
      ((min len (s.rx_buffer.length - s.rx_buffer_head) : Nat) : Int) ∧
    (s.read len).2.2 =
      (s.rx_buffer.drop s.rx_buffer_head).take
        (min len (s.rx_buffer.length - s.rx_buffer_head)) ∧
    (s.read len).1.rx_buffer =
      (if s.rx_buffer_head + min len (s.rx_buffer.length - s.rx_buffer_head) =
          s.rx_buffer.length then [] else s.rx_buffer) ∧
    (s.read len).1.rx_buffer_head =
      (if s.rx_buffer_head + min len (s.rx_buffer.length - s.rx_buffer_head) =
          s.rx_buffer.length then 0
       else s.rx_buffer_head + min len (s.rx_buffer.length - s.rx_buffer_head)) ∧
    (s.read len).1.client =
      (if 0 < min len (s.rx_buffer.length - s.rx_buffer_head) ∧ s.connected = true
       then s.client.map
         (fun c => c.ack (min len (s.rx_buffer.length - s.rx_buffer_head)))
       else s.client) ∧
    (s.read len).1.tx_buffer = s.tx_buffer ∧
    (s.read len).1.tx_buffer_head = s.tx_buffer_head ∧
    (s.read len).1.tx_buffer_size = s.tx_buffer_size ∧
    (s.read len).1.refCount = s.refCount := by
  cases hcl : s.client with
  | none =>
    by_cases hf : s.rx_buffer_head + min len (s.rx_buffer.length - s.rx_buffer_head) =
        s.rx_buffer.length <;>
      simp [SyncClient.read, SyncClient.connected, hcl, h, hf]
  | some c =>
    by_cases hf : s.rx_buffer_head + min len (s.rx_buffer.length - s.rx_buffer_head) =
        s.rx_buffer.length <;>
      by_cases hco : c.isConn = true <;>
      by_cases hpos : 0 < min len (s.rx_buffer.length - s.rx_buffer_head) <;>
      simp [SyncClient.read, SyncClient.connected, hcl, h, hf, hco, hpos]

/-- **C3.** `available()` always returns `size(RxBuffer) − head(RxBuffer)`
(it has no side effects: it is a pure function of the state), and for every
`k` with `0 < k ≤ available()`, `read(buf, k)` returns `k` and decreases
`available()` by exactly `k`. -/
theorem available_read_contract (s : SyncClient) (k : Nat)
    (hk : 0 < k) (hle : (k : Int) ≤ s.available) :
    s.available = ((s.rx_buffer.length - s.rx_buffer_head : Nat) : Int) ∧
    (s.read k).2.1 = (k : Int) ∧
    (s.read k).1.available = s.available - k := by
  have hk' : k ≤ s.rx_buffer.length - s.rx_buffer_head := by
    have h0 := hle
    rw [SyncClient.available] at h0
    exact_mod_cast h0
  have h : s.rx_buffer.length - s.rx_buffer_head ≠ 0 := by omega
  have hhead : s.rx_buffer_head < s.rx_buffer.length := by omega
  have hmin : min k (s.rx_buffer.length - s.rx_buffer_head) = k := by omega
  obtain ⟨h1, h2, h3, h4, -⟩ := read_state_spec s k h
  rw [hmin] at h1 h3 h4
  refine ⟨rfl, h1, ?_⟩
  rw [SyncClient.available, SyncClient.available, h3, h4]
  split <;> (try simp only [List.length_nil]) <;> omega

theorem available_read_contract_witness :
    stRx.available = ((stRx.rx_buffer.length - stRx.rx_buffer_head : Nat) : Int) ∧
    (stRx.read 2).2.1 = (2 : Int) ∧
    (stRx.read 2).1.available = stRx.available - 2 :=
  available_read_contract stRx 2 (by decide) (by decide)

/-- **C5.** `_onDisconnect` clears the connection reference and resets the TX
buffer to empty while leaving the RX buffer and its cursor unchanged; after
it, `write(data, len)` returns 0 without modifying state, and the previously
received but unread RX bytes remain readable with identical results from
`available`, `peek` and `read`. -/
theorem onDisconnect_frame (s : SyncClient) (data : List Nat) (evs : List Event)
    (len : Nat) :
    s._onDisconnect.client = none ∧
    s._onDisconnect.tx_buffer = [] ∧
    s._onDisconnect.tx_buffer_head = 0 ∧
    s._onDisconnect.rx_buffer = s.rx_buffer ∧
    s._onDisconnect.rx_buffer_head = s.rx_buffer_head ∧
    s._onDisconnect.write data evs = some (s._onDisconnect, evs, 0) ∧
    s._onDisconnect.available = s.available ∧
    s._onDisconnect.peek = s.peek ∧
    (s._onDisconnect.read len).2.1 = (s.read len).2.1 ∧
    (s._onDisconnect.read len).2.2 = (s.read len).2.2 := by
  refine ⟨rfl, rfl, rfl, rfl, rfl, ?_, rfl, rfl, ?_, ?_⟩
  · simp [SyncClient.write, SyncClient._onDisconnect]
  · by_cases h : s.rx_buffer.length - s.rx_buffer_head = 0
    · simp [SyncClient.read, SyncClient._onDisconnect, h]
    · rw [(read_state_spec s._onDisconnect len h).1, (read_state_spec s len h).1]
      rfl
  · by_cases h : s.rx_buffer.length - s.rx_buffer_head = 0
    · simp [SyncClient.read, SyncClient._onDisconnect, h]
    · rw [(read_state_spec s._onDisconnect len h).2.1, (read_state_spec s len h).2.1]
      rfl

/-- **C6.** `read(buffer, len)` on an empty RX buffer returns the sentinel
`-1` with the state completely unchanged (so every repetition returns `-1`
until data is appended), and the single-byte `read()` returns `-1` exactly
when no byte is available and otherwise the value of the consumed byte. -/
theorem read_empty_contract (s : SyncClient) (len : Nat) :
    (s.rx_buffer.length - s.rx_buffer_head = 0 →
      s.read len = (s, -1, []) ∧ s.read1 = (s, -1)) ∧
    (s.rx_buffer.length - s.rx_buffer_head ≠ 0 →
      s.read1 = ((s.read 1).1, ((s.rx_buffer.getD s.rx_buffer_head 0 : Nat) : Int))) := by
  constructor
  · intro h
    constructor
    · simp [SyncClient.read, h]
    · simp [SyncClient.read1, SyncClient.read, h]
  · intro h
    have hhead : s.rx_buffer_head < s.rx_buffer.length := by omega
    have hmin : min 1 (s.rx_buffer.length - s.rx_buffer_head) = 1 := by omega
    obtain ⟨h1, h2, -⟩ := read_state_spec s 1 h
    rw [hmin] at h1 h2
    simp only [SyncClient.read1, h1, h2]
    rw [drop_take_one_headD s.rx_buffer s.rx_buffer_head hhead]
    simp

theorem read_empty_contract_witness :
    (stRxEmpty.read 5 = (stRxEmpty, -1, []) ∧ stRxEmpty.read1 = (stRxEmpty, -1)) ∧
    stRx.read1 = ((stRx.read 1).1, ((stRx.rx_buffer.getD stRx.rx_buffer_head 0 : Nat) : Int)) :=
  ⟨(read_empty_contract stRxEmpty 5).1 (by decide),
   (read_empty_contract stRx 0).2 (by decide)⟩

/-- **C8.** `stop(maxWaitMs)` always returns `true` (issuing a close on the
handle when one is bound), and both `stop` and `flush` behave identically for
any two values of `maxWaitMs`: the parameter influences neither the result
nor the state. -/
theorem stop_flush_maxWait_independent (s : SyncClient) (m1 m2 : Nat)
    (evs : List Event) :
    s.stop m1 = s.stop m2 ∧
    s.flush m1 evs = s.flush m2 evs ∧
    (s.stop m1).2 = true ∧
    (∀ c, s.client = some c → (s.stop m1).1.client = some c.close) := by
  refine ⟨rfl, rfl, ?_, ?_⟩
  · cases hc2 : s.client <;> simp [SyncClient.stop, hc2]
  · intro c hc
    simp [SyncClient.stop, hc]

theorem stop_flush_maxWait_independent_witness :
    (stRx.stop 3).1.client = some connA.close :=
  (stop_flush_maxWait_independent stRx 3 9 []).2.2.2 connA rfl

/-- **C10.** `unref()` on an adapter whose shared counter was never allocated
(or was already freed) returns `-1` and leaves all state unchanged, and the
destructor consequently performs no release at all: no callback detachment,
no abort, no buffer clearing. -/
theorem unref_absent_noop (s : SyncClient) (h : s.refCount = none) :
    s.unref = (s, -1) ∧ s.destruct = (s, none) := by
  constructor
  · simp [SyncClient.unref, h]
  · simp [SyncClient.destruct, SyncClient.unref, h]

theorem unref_absent_noop_witness :
    stNoRef.unref = (stNoRef, -1) ∧ stNoRef.destruct = (stNoRef, none) :=
  unref_absent_noop stNoRef rfl

/-- Sample adapter sharing the counter a second time. -/
def stRef2 : SyncClient := { stRx with refCount := some 2 }

/-- Sample adapter holding a handle that reports disconnected. -/
def stDiscConn : SyncClient :=
  { stRx with client := some { connA with isConn := false } }

/-- **C9.** `read(buffer, len)` issues the receive-window acknowledgment
`ack(toRead)` only when at least one byte was consumed and the adapter is
still connected; when disconnected (no handle, or a handle reporting not
connected), `read` copies buffered RX bytes out and advances the cursor
exactly as when connected, but performs no acknowledgment. -/
theorem read_ack_discipline (s : SyncClient) (len : Nat) :
    ((s.rx_buffer.length - s.rx_buffer_head = 0 ∨ len = 0) →
        (s.read len).1.client = s.client) ∧
    (s.connected = false → (s.read len).1.client = s.client) ∧
    (∀ c, s.client = some c → c.isConn = true → 0 < len →
        0 < s.rx_buffer.length - s.rx_buffer_head →
        (s.read len).1.client =
          some (c.ack (min len (s.rx_buffer.length - s.rx_buffer_head)))) ∧
    ((s.read len).2.1 = (({ s with client := none } : SyncClient).read len).2.1 ∧
     (s.read len).2.2 = (({ s with client := none } : SyncClient).read len).2.2 ∧
     (s.read len).1.rx_buffer =
       (({ s with client := none } : SyncClient).read len).1.rx_buffer ∧
     (s.read len).1.rx_buffer_head =
       (({ s with client := none } : SyncClient).read len).1.rx_buffer_head) := by
  refine ⟨?_, ?_, ?_, ?_⟩
  · rintro (h | h)
    · simp [SyncClient.read, h]
    · by_cases h0 : s.rx_buffer.length - s.rx_buffer_head = 0
      · simp [SyncClient.read, h0]
      · rw [(read_state_spec s len h0).2.2.2.2.1, if_neg]
        simp [h]
  · intro hconn
    by_cases h0 : s.rx_buffer.length - s.rx_buffer_head = 0
    · simp [SyncClient.read, h0]
    · rw [(read_state_spec s len h0).2.2.2.2.1, if_neg]
      simp [hconn]
  · intro c hc hisc hlen h0
    have h0' : s.rx_buffer.length - s.rx_buffer_head ≠ 0 := by omega
    have hcond : 0 < min len (s.rx_buffer.length - s.rx_buffer_head) ∧
        s.connected = true := ⟨by omega, by simp [SyncClient.connected, hc, hisc]⟩
    rw [(read_state_spec s len h0').2.2.2.2.1, if_pos hcond, hc]
    rfl
  · by_cases h0 : s.rx_buffer.length - s.rx_buffer_head = 0
    · simp [SyncClient.read, h0]
    · obtain ⟨a1, a2, a3, a4, -⟩ := read_state_spec s len h0
      obtain ⟨b1, b2, b3, b4, -⟩ :=
        read_state_spec ({ s with client := none } : SyncClient) len h0
      rw [a1, a2, a3, a4, b1, b2, b3, b4]
      exact ⟨rfl, rfl, rfl, rfl⟩

theorem read_ack_discipline_witness :
    (stRx.read 2).1.client =
      some (connA.ack (min 2 (stRx.rx_buffer.length - stRx.rx_buffer_head))) ∧
    (stDiscConn.read 2).1.client = stDiscConn.client :=
  ⟨(read_ack_discipline stRx 2).2.2.1 connA rfl rfl (by decide) (by decide),
   (read_ack_discipline stDiscConn 2).2.1 rfl⟩

/-- **C7.** `ref()` allocates the shared counter initialised to 0 when
absent, then increments it and returns the new, strictly positive count,
returning `-1` exactly when allocation fails; `unref()` decrements and frees
the counter exactly when the result is 0, reporting that 0; the destructor
performs the full release (detach the data/ack/poll callbacks, abort the
connection, clear both buffers, drop the connection reference) exactly when
`unref()` reports 0 — so no release happens while the count is still
positive, and release happens at most once. -/
theorem refcount_release_contract (s : SyncClient) :
    (s.refCount = none →
        s.ref false = (s, -1) ∧
        s.ref true = ({ s with refCount := some 1 }, 1)) ∧
    (∀ n, s.refCount = some n → ∀ ok,
        s.ref ok = ({ s with refCount := some (n + 1) }, n + 1) ∧
        (0 ≤ n → 0 < n + 1)) ∧
    (∀ n, s.refCount = some n →
        (n = 1 → s.unref = ({ s with refCount := none }, 0)) ∧
        (n ≠ 1 → s.unref = ({ s with refCount := some (n - 1) }, n - 1) ∧
          n - 1 ≠ 0)) ∧
    (s.refCount = some 1 →
        s.destruct = ({ s with refCount := none, client := none,
                               tx_buffer := [], tx_buffer_head := 0,
                               rx_buffer := [], rx_buffer_head := 0 },
                      s.client.map fun c => c.detachCallbacks.abort) ∧
        (s.destruct).1.destruct = ((s.destruct).1, none)) ∧
    (∀ n, s.refCount = some n → n ≠ 1 →
        (s.destruct).1.client = s.client ∧
        (s.destruct).1.tx_buffer = s.tx_buffer ∧
        (s.destruct).1.tx_buffer_head = s.tx_buffer_head ∧
        (s.destruct).1.rx_buffer = s.rx_buffer ∧
        (s.destruct).1.rx_buffer_head = s.rx_buffer_head ∧
        (s.destruct).2 = none) := by
  refine ⟨?_, ?_, ?_, ?_, ?_⟩
  · intro h
    constructor <;> simp [SyncClient.ref, h]
  · intro n h ok
    constructor
    · simp [SyncClient.ref, h]
    · omega
  · intro n h
    constructor
    · intro h1
      simp [SyncClient.unref, h, h1]
    · intro h1
      have h2 : ¬(n - 1 = 0) := by omega
      constructor
      · simp [SyncClient.unref, h, h2]
      · omega
  · intro h
    have hd : s.destruct = ({ s with refCount := none, client := none,
                                     tx_buffer := [], tx_buffer_head := 0,
                                     rx_buffer := [], rx_buffer_head := 0 },
        s.client.map fun c => c.detachCallbacks.abort) := by
      simp [SyncClient.destruct, SyncClient.unref, SyncClient._release, h]
    refine ⟨hd, ?_⟩
    rw [hd]
    simp [SyncClient.destruct, SyncClient.unref]
  · intro n h h1
    have h2 : ¬(n - 1 = 0) := by omega
    simp [SyncClient.destruct, SyncClient.unref, h, h2]

theorem refcount_release_contract_witness :
    stRx.destruct = ({ stRx with refCount := none, client := none,
                                 tx_buffer := [], tx_buffer_head := 0,
                                 rx_buffer := [], rx_buffer_head := 0 },
      stRx.client.map fun c => c.detachCallbacks.abort) ∧
    (stRef2.destruct).2 = none :=
  ⟨((refcount_release_contract stRx).2.2.2.1 rfl).1,
   ((refcount_release_contract stRef2).2.2.2.2 2 rfl (by decide)).2.2.2.2.2⟩

/-! ## The `_sendBuffer` drain loop -/

/-- Projection facts about one transport `write`: the accepted count never
exceeds the requested length, the accepted prefix is appended to the sent
trace, and connectivity / acks / close state are untouched. -/
lemma AsyncClient.write_spec (c : AsyncClient) (bytes : List Nat) :
    (c.write bytes).2 ≤ bytes.length ∧
    (c.write bytes).1.sentBytes = c.sentBytes ++ bytes.take (c.write bytes).2 ∧
    (c.write bytes).1.isConn = c.isConn ∧
    (c.write bytes).1.acked = c.acked ∧
    (c.write bytes).1.aborted = c.aborted ∧
    (c.write bytes).1.closedNow = c.closedNow := by
  refine ⟨?_, rfl, rfl, rfl, rfl, rfl⟩
  show min (min bytes.length c.space) (c.acceptPlan.headD bytes.length) ≤ bytes.length
  exact le_trans (min_le_left _ _) (min_le_left _ _)

/-- One unfolding of `sendLoop` at positive fuel, on explicit components. -/
lemma sendLoop_succ (fuel : Nat) (c : AsyncClient) (tx : List Nat)
    (head total : Nat) :
    sendLoop (fuel + 1) ⟨c, tx, head, total⟩ =
      if c.isConn && c.canSend && decide (head < tx.length) then
        if (c.write ((tx.drop head).take (sendClamp c tx head))).2 ≠
            sendClamp c tx head then
          ⟨(c.write ((tx.drop head).take (sendClamp c tx head))).1, tx,
            head + (c.write ((tx.drop head).take (sendClamp c tx head))).2,
            total + (c.write ((tx.drop head).take (sendClamp c tx head))).2⟩
        else if head + (c.write ((tx.drop head).take (sendClamp c tx head))).2 =
            tx.length then
          ⟨(c.write ((tx.drop head).take (sendClamp c tx head))).1, [], 0,
            total + (c.write ((tx.drop head).take (sendClamp c tx head))).2⟩
        else
          sendLoop fuel
            ⟨(c.write ((tx.drop head).take (sendClamp c tx head))).1, tx,
              head + (c.write ((tx.drop head).take (sendClamp c tx head))).2,
              total + (c.write ((tx.drop head).take (sendClamp c tx head))).2⟩
      else ⟨c, tx, head, total⟩ := rfl

/-- Master specification of the `_sendBuffer` loop, uniform in the fuel: some
`n` bounded by the unsent span is handed to the transport; it is exactly the
next `n` buffered bytes in order; the cursor advances by exactly `n`, with
the buffer compacted to empty exactly when the cursor reaches the end; and
the handle's connectivity and receive-ack counter are untouched. -/
lemma sendLoop_spec (fuel : Nat) :
    ∀ (c : AsyncClient) (tx : List Nat) (head total : Nat), head < tx.length →
    ∃ n,
      (sendLoop fuel ⟨c, tx, head, total⟩).total = total + n ∧
      n ≤ tx.length - head ∧
      (sendLoop fuel ⟨c, tx, head, total⟩).cl.sentBytes =
        c.sentBytes ++ (tx.drop head).take n ∧
      (sendLoop fuel ⟨c, tx, head, total⟩).cl.isConn = c.isConn ∧
      (sendLoop fuel ⟨c, tx, head, total⟩).cl.acked = c.acked ∧
      (((sendLoop fuel ⟨c, tx, head, total⟩).tx = tx ∧
          (sendLoop fuel ⟨c, tx, head, total⟩).head = head + n ∧
          head + n < tx.length) ∨
       ((sendLoop fuel ⟨c, tx, head, total⟩).tx = [] ∧
          (sendLoop fuel ⟨c, tx, head, total⟩).head = 0 ∧
          head + n = tx.length)) := by
  induction fuel with
  | zero =>
    intro c tx head total h
    exact ⟨0, by simp [sendLoop], by omega, by simp [sendLoop], rfl, rfl,
      Or.inl ⟨rfl, by simp [sendLoop], by omega⟩⟩
  | succ fuel ih =>
    intro c tx head total h
    rw [sendLoop_succ]
    by_cases hg : (c.isConn && c.canSend && decide (head < tx.length)) = true
    case neg =>
      rw [if_neg hg]
      exact ⟨0, by simp, by omega, by simp, rfl, rfl,
        Or.inl ⟨rfl, by simp, by omega⟩⟩
    case pos =>
      rw [if_pos hg]
      have hclamp : sendClamp c tx head ≤ tx.length - head := by
        rw [sendClamp]; split <;> omega
      have hblen : ((tx.drop head).take (sendClamp c tx head)).length =
          sendClamp c tx head := by
        rw [List.length_take, List.length_drop]
        omega
      have hwle : (c.write ((tx.drop head).take (sendClamp c tx head))).2 ≤
          sendClamp c tx head := by
        have h1 := (AsyncClient.write_spec c
          ((tx.drop head).take (sendClamp c tx head))).1
        rw [hblen] at h1
        exact h1
      have hsent : (c.write ((tx.drop head).take (sendClamp c tx head))).1.sentBytes =
          c.sentBytes ++ (tx.drop head).take
            ((c.write ((tx.drop head).take (sendClamp c tx head))).2) := by
        rw [(AsyncClient.write_spec c ((tx.drop head).take (sendClamp c tx head))).2.1,
          List.take_take]
        congr 2
        omega
      by_cases h1 : (c.write ((tx.drop head).take (sendClamp c tx head))).2 =
          sendClamp c tx head
      case neg =>
        rw [if_pos h1]
        exact ⟨(c.write ((tx.drop head).take (sendClamp c tx head))).2, rfl,
          by omega, hsent, (AsyncClient.write_spec c _).2.2.1,
          (AsyncClient.write_spec c _).2.2.2.1, Or.inl ⟨rfl, rfl, by omega⟩⟩
      case pos =>
        rw [if_neg (not_not_intro h1)]
        by_cases h2 : head + (c.write ((tx.drop head).take (sendClamp c tx head))).2 =
            tx.length
        case pos =>
          rw [if_pos h2]
          exact ⟨(c.write ((tx.drop head).take (sendClamp c tx head))).2, rfl,
            by omega, hsent, (AsyncClient.write_spec c _).2.2.1,
            (AsyncClient.write_spec c _).2.2.2.1, Or.inr ⟨rfl, rfl, h2⟩⟩
        case neg =>
          rw [if_neg h2]
          obtain ⟨n', e1, e2, e3, e4, e5, e6⟩ :=
            ih (c.write ((tx.drop head).take (sendClamp c tx head))).1 tx
              (head + (c.write ((tx.drop head).take (sendClamp c tx head))).2)
              (total + (c.write ((tx.drop head).take (sendClamp c tx head))).2)
              (by omega)
          refine ⟨(c.write ((tx.drop head).take (sendClamp c tx head))).2 + n',
            ?_, ?_, ?_, ?_, ?_, ?_⟩
          · rw [e1]; omega
          · omega
          · rw [e3, hsent, List.append_assoc]
            congr 1
            rw [List.take_add]
            congr 2
            rw [List.drop_drop]
          · rw [e4, (AsyncClient.write_spec c _).2.2.1]
          · rw [e5, (AsyncClient.write_spec c _).2.2.2.1]
          · rcases e6 with ⟨f1, f2, f3⟩ | ⟨f1, f2, f3⟩
            · exact Or.inl ⟨f1, by rw [f2]; omega, by omega⟩
            · exact Or.inr ⟨f1, f2, by omega⟩

/-- `_sendBuffer` touches only the TX buffer and the handle: RX fields, the
configured capacity and the reference counter are unchanged. -/
lemma sendBuffer_frame (s : SyncClient) :
    (s._sendBuffer).1.rx_buffer = s.rx_buffer ∧
    (s._sendBuffer).1.rx_buffer_head = s.rx_buffer_head ∧
    (s._sendBuffer).1.tx_buffer_size = s.tx_buffer_size ∧
    (s._sendBuffer).1.refCount = s.refCount := by
  cases hc : s.client with
  | none => simp [SyncClient._sendBuffer, hc]
  | some c =>
    by_cases hg : (!s.connected || !c.canSend ||
        decide (s.tx_buffer_head ≥ s.tx_buffer.length)) = true <;>
      simp [SyncClient._sendBuffer, hc, hg]

/-- `_sendBuffer` preserves the TX-buffer invariant. -/
lemma TxInv_sendBuffer (s : SyncClient) (h : TxInv s) : TxInv (s._sendBuffer).1 := by
  cases hc : s.client with
  | none => simpa [SyncClient._sendBuffer, hc] using h
  | some c =>
    by_cases hg : (!s.connected || !c.canSend ||
        decide (s.tx_buffer_head ≥ s.tx_buffer.length)) = true
    · simpa [SyncClient._sendBuffer, hc, hg] using h
    · have hlt : s.tx_buffer_head < s.tx_buffer.length := by
        rcases Nat.lt_or_ge s.tx_buffer_head s.tx_buffer.length with h1 | h1
        · exact h1
        · exfalso
          apply hg
          simp only [Bool.or_eq_true, decide_eq_true_eq]
          exact Or.inr h1
      obtain ⟨n, e1, e2, e3, e4, e5, e6⟩ :=
        sendLoop_spec (s.tx_buffer.length + 2) c s.tx_buffer s.tx_buffer_head 0 hlt
      simp only [SyncClient._sendBuffer, hc, if_neg hg, TxInv] at h ⊢
      rcases e6 with ⟨f1, f2, f3⟩ | ⟨f1, f2, f3⟩ <;> rw [f1, f2] <;>
        (try simp only [List.length_nil]) <;> omega

/-- **C4.** One `_sendBuffer` invocation returns 0 and changes nothing when
unbound, not connected, without send window, or without unsent bytes.
Otherwise it attempts to push exactly `sendClamp = min(size − head, send
window)` bytes in a single transport write, of which the transport accepts
`n = min(sendClamp, planned)` — so a fully accepting transport drains the
whole clamp, a short accept stops the loop right there (exactly one plan
entry is consumed either way), and the send window shrinks by exactly `n`.
The bytes handed over are exactly the next `n` buffered bytes in order from
the cursor, the cursor advances by exactly `n`, the buffer is reset to empty
exactly when the cursor reaches the end, and the accepted total is
returned. -/
theorem sendBuffer_contract (s : SyncClient) :
    ((s.client = none ∨ s.connected = false ∨ s.clientCanSend = false ∨
        s.tx_buffer.length ≤ s.tx_buffer_head) → s._sendBuffer = (s, 0)) ∧
    (∀ c, s.client = some c → s.connected = true → s.clientCanSend = true →
      s.tx_buffer_head < s.tx_buffer.length →
      ∃ n c', (s._sendBuffer).2 = n ∧ (s._sendBuffer).1.client = some c' ∧
        n ≤ s.tx_buffer.length - s.tx_buffer_head ∧
        c'.sentBytes = c.sentBytes ++
          ((s.tx_buffer.drop s.tx_buffer_head).take n) ∧
        c'.isConn = c.isConn ∧ c'.acked = c.acked ∧
        (s._sendBuffer).1.rx_buffer = s.rx_buffer ∧
        (s._sendBuffer).1.rx_buffer_head = s.rx_buffer_head ∧
        (((s._sendBuffer).1.tx_buffer = s.tx_buffer ∧
            (s._sendBuffer).1.tx_buffer_head = s.tx_buffer_head + n ∧
            s.tx_buffer_head + n < s.tx_buffer.length) ∨
         ((s._sendBuffer).1.tx_buffer = [] ∧
            (s._sendBuffer).1.tx_buffer_head = 0 ∧
            s.tx_buffer_head + n = s.tx_buffer.length)) ∧
        n = min (sendClamp c s.tx_buffer s.tx_buffer_head)
            (c.acceptPlan.headD (sendClamp c s.tx_buffer s.tx_buffer_head)) ∧
        c'.acceptPlan = c.acceptPlan.drop 1 ∧
        c'.space = c.space - n) := by
  constructor
  · rintro (hc | hc | hc | hc)
    · simp [SyncClient._sendBuffer, hc]
    · cases hcl : s.client with
      | none => simp [SyncClient._sendBuffer, hcl]
      | some c => simp [SyncClient._sendBuffer, hcl, hc]
    · cases hcl : s.client with
      | none => simp [SyncClient._sendBuffer, hcl]
      | some c =>
        simp only [SyncClient.clientCanSend, hcl] at hc
        simp [SyncClient._sendBuffer, hcl, hc]
    · cases hcl : s.client with
      | none => simp [SyncClient._sendBuffer, hcl]
      | some c =>
        simp [SyncClient._sendBuffer, hcl,
          show s.tx_buffer_head ≥ s.tx_buffer.length from hc]
  · intro c hc hconn hcs hlt
    have hic : c.isConn = true := by
      rw [SyncClient.connected, hc] at hconn
      exact hconn
    have hcsend : c.canSend = true := by
      rw [SyncClient.clientCanSend, hc] at hcs
      exact hcs
    have hg' : ¬((!s.connected || !c.canSend ||
        decide (s.tx_buffer_head ≥ s.tx_buffer.length)) = true) := by
      rw [hconn, hcsend]
      simp only [Bool.not_true, Bool.false_or, Bool.or_eq_true, decide_eq_true_eq]
      omega
    have hsb : s._sendBuffer =
        ({ s with
             client := some (sendLoop (s.tx_buffer.length + 2)
               ⟨c, s.tx_buffer, s.tx_buffer_head, 0⟩).cl,
             tx_buffer := (sendLoop (s.tx_buffer.length + 2)
               ⟨c, s.tx_buffer, s.tx_buffer_head, 0⟩).tx,
             tx_buffer_head := (sendLoop (s.tx_buffer.length + 2)
               ⟨c, s.tx_buffer, s.tx_buffer_head, 0⟩).head },
         (sendLoop (s.tx_buffer.length + 2)
           ⟨c, s.tx_buffer, s.tx_buffer_head, 0⟩).total) := by
      simp only [SyncClient._sendBuffer, hc, if_neg hg']
    obtain ⟨n, e1, e2, e3, e4, e5, e6⟩ :=
      sendLoop_spec (s.tx_buffer.length + 2) c s.tx_buffer s.tx_buffer_head 0 hlt
    have hcsp : sendClamp c s.tx_buffer s.tx_buffer_head ≤ c.space := by
      rw [sendClamp]; split <;> omega
    have hblen : ((s.tx_buffer.drop s.tx_buffer_head).take
        (sendClamp c s.tx_buffer s.tx_buffer_head)).length =
        sendClamp c s.tx_buffer s.tx_buffer_head := by
      rw [List.length_take, List.length_drop]
      have hcl : sendClamp c s.tx_buffer s.tx_buffer_head ≤
          s.tx_buffer.length - s.tx_buffer_head := by
        rw [sendClamp]; split <;> omega
      omega
    have hw2 : (c.write ((s.tx_buffer.drop s.tx_buffer_head).take
        (sendClamp c s.tx_buffer s.tx_buffer_head))).2 =
        min (sendClamp c s.tx_buffer s.tx_buffer_head)
          (c.acceptPlan.headD (sendClamp c s.tx_buffer s.tx_buffer_head)) := by
      show min (min ((s.tx_buffer.drop s.tx_buffer_head).take
          (sendClamp c s.tx_buffer s.tx_buffer_head)).length c.space)
        (c.acceptPlan.headD ((s.tx_buffer.drop s.tx_buffer_head).take
          (sendClamp c s.tx_buffer s.tx_buffer_head)).length) =
        min (sendClamp c s.tx_buffer s.tx_buffer_head)
          (c.acceptPlan.headD (sendClamp c s.tx_buffer s.tx_buffer_head))
      rw [hblen]
      omega
    have hr : (sendLoop (s.tx_buffer.length + 2)
          ⟨c, s.tx_buffer, s.tx_buffer_head, 0⟩).total =
        (c.write ((s.tx_buffer.drop s.tx_buffer_head).take
          (sendClamp c s.tx_buffer s.tx_buffer_head))).2 ∧
        (sendLoop (s.tx_buffer.length + 2)
          ⟨c, s.tx_buffer, s.tx_buffer_head, 0⟩).cl.acceptPlan =
          c.acceptPlan.drop 1 ∧
        (sendLoop (s.tx_buffer.length + 2)
          ⟨c, s.tx_buffer, s.tx_buffer_head, 0⟩).cl.space =
          c.space - (c.write ((s.tx_buffer.drop s.tx_buffer_head).take
            (sendClamp c s.tx_buffer s.tx_buffer_head))).2 := by
      by_cases h1 : (c.write ((s.tx_buffer.drop s.tx_buffer_head).take
          (sendClamp c s.tx_buffer s.tx_buffer_head))).2 =
          sendClamp c s.tx_buffer s.tx_buffer_head
      case neg =>
        rw [show s.tx_buffer.length + 2 = (s.tx_buffer.length + 1) + 1 from rfl,
          sendLoop_succ, if_pos (by simp [hic, hcsend, hlt]), if_pos h1]
        exact ⟨Nat.zero_add _, rfl, rfl⟩
      case pos =>
        by_cases h2 : s.tx_buffer_head + (c.write ((s.tx_buffer.drop
            s.tx_buffer_head).take (sendClamp c s.tx_buffer s.tx_buffer_head))).2 =
            s.tx_buffer.length
        case pos =>
          rw [show s.tx_buffer.length + 2 = (s.tx_buffer.length + 1) + 1 from rfl,
            sendLoop_succ, if_pos (by simp [hic, hcsend, hlt]),
            if_neg (not_not_intro h1), if_pos h2]
          exact ⟨Nat.zero_add _, rfl, rfl⟩
        case neg =>
          have hclsp : sendClamp c s.tx_buffer s.tx_buffer_head = c.space := by
            by_cases hsp : c.space < s.tx_buffer.length - s.tx_buffer_head
            · rw [sendClamp, if_pos hsp]
            · exfalso
              apply h2
              rw [h1, sendClamp, if_neg hsp]
              omega
          have hsp0 : (c.write ((s.tx_buffer.drop s.tx_buffer_head).take
              (sendClamp c s.tx_buffer s.tx_buffer_head))).1.space = 0 := by
            show c.space - (c.write ((s.tx_buffer.drop s.tx_buffer_head).take
              (sendClamp c s.tx_buffer s.tx_buffer_head))).2 = 0
            rw [h1, hclsp]
            omega
          have hguard2 : ¬(((c.write ((s.tx_buffer.drop s.tx_buffer_head).take
              (sendClamp c s.tx_buffer s.tx_buffer_head))).1.isConn &&
              (c.write ((s.tx_buffer.drop s.tx_buffer_head).take
                (sendClamp c s.tx_buffer s.tx_buffer_head))).1.canSend &&
              decide (s.tx_buffer_head + (c.write ((s.tx_buffer.drop
                s.tx_buffer_head).take (sendClamp c s.tx_buffer
                s.tx_buffer_head))).2 < s.tx_buffer.length)) = true) := by
            simp [AsyncClient.canSend, hsp0]
          rw [show s.tx_buffer.length + 2 = (s.tx_buffer.length + 1) + 1 from rfl,
            sendLoop_succ, if_pos (by simp [hic, hcsend, hlt]),
            if_neg (not_not_intro h1), if_neg h2,
            sendLoop_succ, if_neg hguard2]
          exact ⟨Nat.zero_add _, rfl, rfl⟩
    have hn : n = (c.write ((s.tx_buffer.drop s.tx_buffer_head).take
        (sendClamp c s.tx_buffer s.tx_buffer_head))).2 := by
      have h0 := hr.1
      omega
    refine ⟨n, (sendLoop (s.tx_buffer.length + 2)
        ⟨c, s.tx_buffer, s.tx_buffer_head, 0⟩).cl,
      ?_, ?_, e2, e3, e4, e5, ?_, ?_, ?_, ?_, hr.2.1, ?_⟩
    · rw [hsb]
      exact e1.trans (Nat.zero_add n)
    · rw [hsb]
    · rw [hsb]
    · rw [hsb]
    · rcases e6 with ⟨f1, f2, f3⟩ | ⟨f1, f2, f3⟩
      · exact Or.inl ⟨by rw [hsb]; exact f1, by rw [hsb]; exact f2, f3⟩
      · exact Or.inr ⟨by rw [hsb]; exact f1, by rw [hsb]; exact f2, f3⟩
    · rw [hn, hw2]
    · rw [hn]
      exact hr.2.2

theorem sendBuffer_contract_witness :
    ∃ n c', (stRx._sendBuffer).2 = n ∧ (stRx._sendBuffer).1.client = some c' ∧
      n ≤ stRx.tx_buffer.length - stRx.tx_buffer_head ∧
      c'.sentBytes = connA.sentBytes ++
        ((stRx.tx_buffer.drop stRx.tx_buffer_head).take n) ∧
      c'.isConn = connA.isConn ∧ c'.acked = connA.acked ∧
      (stRx._sendBuffer).1.rx_buffer = stRx.rx_buffer ∧
      (stRx._sendBuffer).1.rx_buffer_head = stRx.rx_buffer_head ∧
      (((stRx._sendBuffer).1.tx_buffer = stRx.tx_buffer ∧
          (stRx._sendBuffer).1.tx_buffer_head = stRx.tx_buffer_head + n ∧
          stRx.tx_buffer_head + n < stRx.tx_buffer.length) ∨
       ((stRx._sendBuffer).1.tx_buffer = [] ∧
          (stRx._sendBuffer).1.tx_buffer_head = 0 ∧
          stRx.tx_buffer_head + n = stRx.tx_buffer.length)) ∧
      n = min (sendClamp connA stRx.tx_buffer stRx.tx_buffer_head)
          (connA.acceptPlan.headD (sendClamp connA stRx.tx_buffer stRx.tx_buffer_head)) ∧
      c'.acceptPlan = connA.acceptPlan.drop 1 ∧
      c'.space = connA.space - n :=
  (sendBuffer_contract stRx).2 connA rfl rfl (by decide) (by decide)

/-! ## The `write` path -/

/-- Sample adapter with no bound handle. -/
def stDisc : SyncClient := { stRx with client := none }

/-- The handle of `stRx` after draining `[2, 3, 5, 6]` into the transport. -/
def connAfterWrite : AsyncClient := { connA with space := 0, sentBytes := [2, 3, 5, 6] }

/-- The state of `stRx` after `write [5, 6]`: bytes copied in, buffer drained. -/
def stAfterWrite : SyncClient :=
  { stRx with client := some connAfterWrite, tx_buffer := [], tx_buffer_head := 0 }

/-- The post-loop drain never changes the byte count it reports. -/
lemma writeTail_third (s : SyncClient) (evs : List Event) (written : Nat) :
    (s.writeTail evs written).2.2 = written := by
  rw [SyncClient.writeTail]
  split <;> rfl

/-- One unfolding of `writeLoop` at positive fuel. -/
lemma writeLoop_succ (fuel : Nat) (s : SyncClient) (evs : List Event)
    (data : List Nat) (written : Nat) :
    SyncClient.writeLoop (fuel + 1) s evs data written =
      if written < data.length then
        if s.tx_buffer_size - (s.tx_buffer.length - s.tx_buffer_head) = 0 then
          match s.busyWait evs with
          | none => none
          | some (s1, evs1) =>
            if !s1.connected then some (s1, evs1, written)
            else
              if (s1._sendBuffer).1.tx_buffer_size -
                  ((s1._sendBuffer).1.tx_buffer.length -
                    (s1._sendBuffer).1.tx_buffer_head) = 0 then
                some (((s1._sendBuffer).1).writeTail evs1 written)
              else
                SyncClient.writeLoop fuel
                  { (s1._sendBuffer).1 with
                      tx_buffer := (s1._sendBuffer).1.tx_buffer ++
                        (data.drop written).take
                          (min ((s1._sendBuffer).1.tx_buffer_size -
                            ((s1._sendBuffer).1.tx_buffer.length -
                              (s1._sendBuffer).1.tx_buffer_head))
                            (data.length - written)) }
                  evs1 data
                  (written + min ((s1._sendBuffer).1.tx_buffer_size -
                    ((s1._sendBuffer).1.tx_buffer.length -
                      (s1._sendBuffer).1.tx_buffer_head)) (data.length - written))
        else
          SyncClient.writeLoop fuel
            { s with
                tx_buffer := s.tx_buffer ++
                  (data.drop written).take
                    (min (s.tx_buffer_size -
                      (s.tx_buffer.length - s.tx_buffer_head))
                      (data.length - written)) }
            evs data
            (written + min (s.tx_buffer_size -
              (s.tx_buffer.length - s.tx_buffer_head)) (data.length - written))
      else some (s.writeTail evs written) := rfl

/-- `writeLoop` when the TX buffer is full and the busy-wait diverges. -/
lemma writeLoop_succ_none (fuel : Nat) (s : SyncClient) (evs : List Event)
    (data : List Nat) (written : Nat)
    (h1 : written < data.length)
    (h2 : s.tx_buffer_size - (s.tx_buffer.length - s.tx_buffer_head) = 0)
    (hbw : s.busyWait evs = none) :
    SyncClient.writeLoop (fuel + 1) s evs data written = none := by
  rw [writeLoop_succ, if_pos h1, if_pos h2, hbw]

/-- `writeLoop` when the TX buffer is full and the busy-wait completes. -/
lemma writeLoop_succ_some (fuel : Nat) (s : SyncClient) (evs : List Event)
    (data : List Nat) (written : Nat) (s1 : SyncClient) (evs1 : List Event)
    (h1 : written < data.length)
    (h2 : s.tx_buffer_size - (s.tx_buffer.length - s.tx_buffer_head) = 0)
    (hbw : s.busyWait evs = some (s1, evs1)) :
    SyncClient.writeLoop (fuel + 1) s evs data written =
      (if !s1.connected then some (s1, evs1, written)
       else
         if (s1._sendBuffer).1.tx_buffer_size -
             ((s1._sendBuffer).1.tx_buffer.length -
               (s1._sendBuffer).1.tx_buffer_head) = 0 then
           some (((s1._sendBuffer).1).writeTail evs1 written)
         else
           SyncClient.writeLoop fuel
             { (s1._sendBuffer).1 with
                 tx_buffer := (s1._sendBuffer).1.tx_buffer ++
                   (data.drop written).take
                     (min ((s1._sendBuffer).1.tx_buffer_size -
                       ((s1._sendBuffer).1.tx_buffer.length -
                         (s1._sendBuffer).1.tx_buffer_head))
                       (data.length - written)) }
             evs1 data
             (written + min ((s1._sendBuffer).1.tx_buffer_size -
               ((s1._sendBuffer).1.tx_buffer.length -
                 (s1._sendBuffer).1.tx_buffer_head)) (data.length - written))) := by
  rw [writeLoop_succ, if_pos h1, if_pos h2, hbw]

/-- Whenever the write loop terminates, the count it reports never exceeds
the caller's requested length. -/
lemma writeLoop_count (fuel : Nat) :
    ∀ (s : SyncClient) (evs : List Event) (data : List Nat) (written : Nat)
      (s' : SyncClient) (evs' : List Event) (n : Nat),
      written ≤ data.length →
      SyncClient.writeLoop fuel s evs data written = some (s', evs', n) →
      n ≤ data.length := by
  induction fuel with
  | zero =>
    intro s evs data written s' evs' n hw heq
    simp [SyncClient.writeLoop] at heq
  | succ fuel ih =>
    intro s evs data written s' evs' n hw heq
    by_cases h1 : written < data.length
    case neg =>
      rw [writeLoop_succ, if_neg h1] at heq
      simp only [Option.some.injEq] at heq
      have h5 := writeTail_third s evs written
      rw [heq] at h5
      simp only [Prod.snd] at h5
      omega
    case pos =>
      by_cases h2 : s.tx_buffer_size - (s.tx_buffer.length - s.tx_buffer_head) = 0
      case neg =>
        rw [writeLoop_succ, if_pos h1, if_neg h2] at heq
        exact ih _ _ _ _ _ _ _ (by omega) heq
      case pos =>
        cases hbw : s.busyWait evs with
        | none =>
          rw [writeLoop_succ_none fuel s evs data written h1 h2 hbw] at heq
          cases heq
        | some p =>
          obtain ⟨s1, evs1⟩ := p
          rw [writeLoop_succ_some fuel s evs data written s1 evs1 h1 h2 hbw] at heq
          by_cases h3 : (!s1.connected) = true
          · rw [if_pos h3] at heq
            simp only [Option.some.injEq, Prod.mk.injEq] at heq
            omega
          · rw [if_neg h3] at heq
            by_cases h4 : (s1._sendBuffer).1.tx_buffer_size -
                ((s1._sendBuffer).1.tx_buffer.length -
                  (s1._sendBuffer).1.tx_buffer_head) = 0
            · rw [if_pos h4] at heq
              simp only [Option.some.injEq] at heq
              have h5 := writeTail_third (s1._sendBuffer).1 evs1 written
              rw [heq] at h5
              simp only [Prod.snd] at h5
              omega
            · rw [if_neg h4] at heq
              exact ih _ _ _ _ _ _ _ (by omega) heq


/-! ## The TX-buffer invariant -/

/-- Appending at most the free space keeps the TX invariant. -/
lemma txinv_append (s : SyncClient) (bs : List Nat) (h : TxInv s)
    (hb : bs.length ≤ s.tx_buffer_size - (s.tx_buffer.length - s.tx_buffer_head)) :
    TxInv { s with tx_buffer := s.tx_buffer ++ bs } := by
  obtain ⟨h1, h2⟩ := h
  refine ⟨?_, ?_⟩ <;> simp only [List.length_append] <;> omega

/-- The disconnect handler re-establishes the TX invariant outright. -/
lemma TxInv_onDisconnect (s : SyncClient) : TxInv s._onDisconnect := by
  refine ⟨?_, ?_⟩ <;> simp [SyncClient._onDisconnect]

/-- Every asynchronous event preserves the TX invariant. -/
lemma TxInv_applyEvent (s : SyncClient) (e : Event) (h : TxInv s) :
    TxInv (s.applyEvent e) := by
  cases e with
  | discEv => exact TxInv_onDisconnect s
  | dataEv bs ok =>
    cases hc : s.client with
    | none => simpa [SyncClient.applyEvent, SyncClient._onData, hc] using h
    | some c =>
      cases ok <;> simpa [SyncClient.applyEvent, SyncClient._onData, hc] using h
  | ackEv ns =>
    cases hc : s.client with
    | none => simpa [SyncClient.applyEvent, hc] using h
    | some c =>
      have h2 : TxInv (SyncClient._sendBuffer
          { s with client := some { c with space := ns } }).1 :=
        TxInv_sendBuffer { s with client := some { c with space := ns } } h
      simpa [SyncClient.applyEvent, hc] using h2

/-- The busy-wait loop preserves the TX invariant. -/
lemma TxInv_busyWait (evs : List Event) :
    ∀ (s s' : SyncClient) (evs' : List Event), TxInv s →
      s.busyWait evs = some (s', evs') → TxInv s' := by
  induction evs with
  | nil =>
    intro s s' evs' h heq
    simp only [SyncClient.busyWait] at heq
    split at heq
    · cases heq
    · simp only [Option.some.injEq, Prod.mk.injEq] at heq
      obtain ⟨h1, -⟩ := heq
      rw [← h1]
      exact h
  | cons e rest ih =>
    intro s s' evs' h heq
    simp only [SyncClient.busyWait] at heq
    split at heq
    · exact ih _ _ _ (TxInv_applyEvent s e h) heq
    · simp only [Option.some.injEq, Prod.mk.injEq] at heq
      obtain ⟨h1, -⟩ := heq
      rw [← h1]
      exact h

/-- The post-loop opportunistic drain preserves the TX invariant. -/
lemma TxInv_writeTail (s : SyncClient) (evs : List Event) (written : Nat)
    (h : TxInv s) : TxInv (s.writeTail evs written).1 := by
  rw [SyncClient.writeTail]
  split
  · exact TxInv_sendBuffer s h
  · exact h

/-- The write loop preserves the TX invariant on every terminating run. -/
lemma TxInv_writeLoop (fuel : Nat) :
    ∀ (s : SyncClient) (evs : List Event) (data : List Nat) (written : Nat)
      (s' : SyncClient) (evs' : List Event) (n : Nat), TxInv s →
      SyncClient.writeLoop fuel s evs data written = some (s', evs', n) →
      TxInv s' := by
  induction fuel with
  | zero =>
    intro s evs data written s' evs' n h heq
    simp [SyncClient.writeLoop] at heq
  | succ fuel ih =>
    intro s evs data written s' evs' n h heq
    by_cases h1 : written < data.length
    case neg =>
      rw [writeLoop_succ, if_neg h1] at heq
      simp only [Option.some.injEq] at heq
      have h5 := TxInv_writeTail s evs written h
      rw [heq] at h5
      exact h5
    case pos =>
      by_cases h2 : s.tx_buffer_size - (s.tx_buffer.length - s.tx_buffer_head) = 0
      case neg =>
        rw [writeLoop_succ, if_pos h1, if_neg h2] at heq
        refine ih _ _ _ _ _ _ _ ?_ heq
        refine txinv_append s _ h ?_
        simp only [List.length_take, List.length_drop]
        omega
      case pos =>
        cases hbw : s.busyWait evs with
        | none =>
          rw [writeLoop_succ_none fuel s evs data written h1 h2 hbw] at heq
          cases heq
        | some p =>
          obtain ⟨s1, evs1⟩ := p
          have hs1 : TxInv s1 := TxInv_busyWait evs s s1 evs1 h hbw
          rw [writeLoop_succ_some fuel s evs data written s1 evs1 h1 h2 hbw] at heq
          by_cases h3 : (!s1.connected) = true
          · rw [if_pos h3] at heq
            simp only [Option.some.injEq, Prod.mk.injEq] at heq
            obtain ⟨e1, -⟩ := heq
            rw [← e1]
            exact hs1
          · rw [if_neg h3] at heq
            have hs2 : TxInv (s1._sendBuffer).1 := TxInv_sendBuffer s1 hs1
            by_cases h4 : (s1._sendBuffer).1.tx_buffer_size -
                ((s1._sendBuffer).1.tx_buffer.length -
                  (s1._sendBuffer).1.tx_buffer_head) = 0
            · rw [if_pos h4] at heq
              simp only [Option.some.injEq] at heq
              have h5 := TxInv_writeTail (s1._sendBuffer).1 evs1 written hs2
              rw [heq] at h5
              exact h5
            · rw [if_neg h4] at heq
              refine ih _ _ _ _ _ _ _ ?_ heq
              refine txinv_append (s1._sendBuffer).1 _ hs2 ?_
              simp only [List.length_take, List.length_drop]
              omega

/-- `flush` preserves the TX invariant on every terminating run. -/
lemma TxInv_flush (s : SyncClient) (m : Nat) (evs : List Event)
    (s' : SyncClient) (evs' : List Event) (b : Bool) (h : TxInv s)
    (heq : s.flush m evs = some (s', evs', b)) : TxInv s' := by
  simp only [SyncClient.flush] at heq
  by_cases h1 : (s.client.isNone || !s.connected) = true
  · rw [if_pos h1] at heq
    simp only [Option.some.injEq, Prod.mk.injEq] at heq
    obtain ⟨e1, -⟩ := heq
    rw [← e1]
    exact h
  · rw [if_neg h1] at heq
    by_cases h2 : s.tx_buffer_head < s.tx_buffer.length
    · rw [if_pos h2] at heq
      cases hbw : s.busyWait evs with
      | none => rw [hbw] at heq; cases heq
      | some p =>
        obtain ⟨s1, evs1⟩ := p
        rw [hbw] at heq
        have hs1 : TxInv s1 := TxInv_busyWait evs s s1 evs1 h hbw
        have heq2 : (if s1.client.isNone = true then some (s1, evs1, false)
            else some ((s1._sendBuffer).1, evs1,
              ((s1._sendBuffer).1.tx_buffer_head ==
                (s1._sendBuffer).1.tx_buffer.length))) =
            some (s', evs', b) := heq
        by_cases h3 : s1.client.isNone = true
        · rw [if_pos h3] at heq2
          simp only [Option.some.injEq, Prod.mk.injEq] at heq2
          obtain ⟨e1, -⟩ := heq2
          rw [← e1]
          exact hs1
        · rw [if_neg h3] at heq2
          simp only [Option.some.injEq, Prod.mk.injEq] at heq2
          obtain ⟨e1, -⟩ := heq2
          rw [← e1]
          exact TxInv_sendBuffer s1 hs1
    · rw [if_neg h2] at heq
      simp only [Option.some.injEq, Prod.mk.injEq] at heq
      obtain ⟨e1, -⟩ := heq
      rw [← e1]
      exact h

/-- **C2.** The TX invariant `head ≤ size ∧ size − head ≤ capacity` holds in
the initial state and is preserved by every adapter operation — `write`,
`_sendBuffer`, `flush`, `_onConnect`, `_onDisconnect`, `_release` (and by
every asynchronous callback that can run while one of them yields) — so the
buffered-unsent length never exceeds the configured capacity at any
observable point. -/
theorem tx_invariant (s : SyncClient) :
    (∀ (len : Nat) (ok : Bool), TxInv (SyncClient.init len ok)) ∧
    (TxInv s → TxInv (s._sendBuffer).1) ∧
    (∀ data evs s' evs' k, TxInv s →
        s.write data evs = some (s', evs', k) → TxInv s') ∧
    (∀ m evs s' evs' b, TxInv s →
        s.flush m evs = some (s', evs', b) → TxInv s') ∧
    (∀ c, TxInv (s._onConnect c)) ∧
    TxInv s._onDisconnect ∧
    TxInv (s._release).1 := by
  refine ⟨?_, TxInv_sendBuffer s, ?_, ?_, ?_, TxInv_onDisconnect s, ?_⟩
  · intro len ok
    cases ok <;> refine ⟨?_, ?_⟩ <;>
      simp [SyncClient.init, SyncClient.ref]
  · intro data evs s' evs' k h heq
    simp only [SyncClient.write] at heq
    by_cases h1 : (s.client.isNone || !s.connected) = true
    · rw [if_pos h1] at heq
      simp only [Option.some.injEq, Prod.mk.injEq] at heq
      obtain ⟨e1, -⟩ := heq
      rw [← e1]
      exact h
    · rw [if_neg h1] at heq
      exact TxInv_writeLoop (data.length + 1) s evs data 0 s' evs' k h heq
  · intro m evs s' evs' b h heq
    exact TxInv_flush s m evs s' evs' b h heq
  · intro c
    refine ⟨?_, ?_⟩ <;> simp [SyncClient._onConnect]
  · refine ⟨?_, ?_⟩ <;> simp [SyncClient._release]

theorem tx_invariant_witness :
    TxInv (stRx._sendBuffer).1 ∧ TxInv stAfterWrite :=
  ⟨(tx_invariant stRx).2.1 ⟨by decide, by decide⟩,
   (tx_invariant stRx).2.2.1 [5, 6] [] stAfterWrite [] 2 ⟨by decide, by decide⟩
     (by decide)⟩

/-! ## Byte conservation through the write path -/

/-- The bytes the adapter has handed to the transport so far (empty when no
handle is bound). -/
def sentTrace (s : SyncClient) : List Nat :=
  match s.client with
  | none => []
  | some c => c.sentBytes

/-- The bytes currently buffered but unsent: the TX buffer past its cursor. -/
def txQueue (s : SyncClient) : List Nat :=
  s.tx_buffer.drop s.tx_buffer_head

/-- `_sendBuffer` conserves the combined sent-plus-queued byte stream: it
only moves bytes from the front of the queue to the transport. -/
lemma flow_sendBuffer (s : SyncClient) :
    sentTrace (s._sendBuffer).1 ++ txQueue (s._sendBuffer).1 =
      sentTrace s ++ txQueue s := by
  cases hc : s.client with
  | none => simp [SyncClient._sendBuffer, hc]
  | some c =>
    by_cases hg : (!s.connected || !c.canSend ||
        decide (s.tx_buffer_head ≥ s.tx_buffer.length)) = true
    · simp [SyncClient._sendBuffer, hc, hg]
    · have hlt : s.tx_buffer_head < s.tx_buffer.length := by
        rcases Nat.lt_or_ge s.tx_buffer_head s.tx_buffer.length with h1 | h1
        · exact h1
        · exfalso
          apply hg
          simp only [Bool.or_eq_true, decide_eq_true_eq]
          exact Or.inr h1
      obtain ⟨n, e1, e2, e3, e4, e5, e6⟩ :=
        sendLoop_spec (s.tx_buffer.length + 2) c s.tx_buffer s.tx_buffer_head 0 hlt
      simp only [SyncClient._sendBuffer, hc, if_neg hg, sentTrace, txQueue]
      rw [e3]
      rcases e6 with ⟨f1, f2, f3⟩ | ⟨f1, f2, f3⟩
      · rw [f1, f2, List.append_assoc, List.drop_take_append_drop]
      · rw [f1, f2, List.drop_nil, List.append_nil]
        congr 1
        apply List.take_of_length_le
        rw [List.length_drop]
        omega

/-- Non-disconnect events conserve the combined sent-plus-queued stream. -/
lemma flow_applyEvent (s : SyncClient) (e : Event) (he : e ≠ Event.discEv) :
    sentTrace (s.applyEvent e) ++ txQueue (s.applyEvent e) =
      sentTrace s ++ txQueue s := by
  cases e with
  | discEv => exact absurd rfl he
  | dataEv bs ok =>
    cases hc : s.client with
    | none => simp [SyncClient.applyEvent, SyncClient._onData, hc]
    | some c =>
      cases ok <;>
        simp [SyncClient.applyEvent, SyncClient._onData, hc, sentTrace, txQueue,
          AsyncClient.ackLater, AsyncClient.abort]
  | ackEv ns =>
    cases hc : s.client with
    | none => simp [SyncClient.applyEvent, hc]
    | some c =>
      have h2 := flow_sendBuffer { s with client := some { c with space := ns } }
      simpa [SyncClient.applyEvent, hc, sentTrace, txQueue] using h2

/-- A disconnect-free busy-wait conserves the combined stream and hands back
a disconnect-free remainder of the script. -/
lemma flow_busyWait (evs : List Event) :
    ∀ (s s1 : SyncClient) (evs1 : List Event), Event.discEv ∉ evs →
      s.busyWait evs = some (s1, evs1) →
      sentTrace s1 ++ txQueue s1 = sentTrace s ++ txQueue s ∧
        Event.discEv ∉ evs1 := by
  induction evs with
  | nil =>
    intro s s1 evs1 hnd heq
    simp only [SyncClient.busyWait] at heq
    split at heq
    · cases heq
    · simp only [Option.some.injEq, Prod.mk.injEq] at heq
      obtain ⟨h1, h2⟩ := heq
      rw [← h1, ← h2]
      exact ⟨rfl, by simp⟩
  | cons e rest ih =>
    intro s s1 evs1 hnd heq
    have hne : e ≠ Event.discEv := by
      intro hx
      apply hnd
      rw [hx]
      exact List.mem_cons_self _ _
    have hnd' : Event.discEv ∉ rest := fun hx => hnd (List.mem_cons_of_mem _ hx)
    simp only [SyncClient.busyWait] at heq
    split at heq
    · obtain ⟨ih1, ih2⟩ := ih (s.applyEvent e) s1 evs1 hnd' heq
      exact ⟨ih1.trans (flow_applyEvent s e hne), ih2⟩
    · simp only [Option.some.injEq, Prod.mk.injEq] at heq
      obtain ⟨h1, h2⟩ := heq
      rw [← h1, ← h2]
      exact ⟨rfl, hnd⟩

/-- The post-loop opportunistic drain conserves the combined stream. -/
lemma flow_writeTail (s : SyncClient) (evs : List Event) (written : Nat) :
    sentTrace (s.writeTail evs written).1 ++ txQueue (s.writeTail evs written).1 =
      sentTrace s ++ txQueue s := by
  rw [SyncClient.writeTail]
  split
  · exact flow_sendBuffer s
  · rfl

/-- Appending to the TX buffer appends to the unsent queue. -/
lemma txQueue_append (s : SyncClient) (bs : List Nat)
    (h : s.tx_buffer_head ≤ s.tx_buffer.length) :
    txQueue { s with tx_buffer := s.tx_buffer ++ bs } = txQueue s ++ bs := by
  simp only [txQueue]
  exact List.drop_append_of_le_length h

/-- On every terminating, disconnect-free run of the write loop, the combined
sent-plus-queued byte stream grows by exactly the slice of `data` the loop
copied into the TX buffer — pinning the reported count to the copies. -/
lemma writeLoop_flow (fuel : Nat) :
    ∀ (s : SyncClient) (evs : List Event) (data : List Nat) (written : Nat)
      (s' : SyncClient) (evs' : List Event) (n : Nat), TxInv s →
      Event.discEv ∉ evs → written ≤ data.length →
      SyncClient.writeLoop fuel s evs data written = some (s', evs', n) →
      written ≤ n ∧
      sentTrace s' ++ txQueue s' =
        sentTrace s ++ txQueue s ++ (data.drop written).take (n - written) := by
  induction fuel with
  | zero =>
    intro s evs data written s' evs' n h hnd hw heq
    simp [SyncClient.writeLoop] at heq
  | succ fuel ih =>
    intro s evs data written s' evs' n h hnd hw heq
    by_cases h1 : written < data.length
    case neg =>
      rw [writeLoop_succ, if_neg h1] at heq
      simp only [Option.some.injEq] at heq
      have h5 := writeTail_third s evs written
      have h6 := flow_writeTail s evs written
      rw [heq] at h5 h6
      simp only [Prod.snd] at h5
      refine ⟨by omega, ?_⟩
      have hz : n - written = 0 := by omega
      rw [hz, List.take_zero, List.append_nil]
      exact h6
    case pos =>
      by_cases h2 : s.tx_buffer_size - (s.tx_buffer.length - s.tx_buffer_head) = 0
      case neg =>
        rw [writeLoop_succ, if_pos h1, if_neg h2] at heq
        set tc := min (s.tx_buffer_size - (s.tx_buffer.length - s.tx_buffer_head))
          (data.length - written) with htc
        set sApp := { s with
          tx_buffer := s.tx_buffer ++ (data.drop written).take tc } with hsApp
        have hTx : TxInv sApp := by
          rw [hsApp]
          refine txinv_append s _ h ?_
          simp only [List.length_take, List.length_drop]
          omega
        obtain ⟨ih1, ih2⟩ := ih sApp evs data (written + tc) s' evs' n hTx hnd
          (by omega) heq
        refine ⟨by omega, ?_⟩
        rw [ih2]
        have hst : sentTrace sApp = sentTrace s := by
          rw [hsApp]
          rfl
        have hq : txQueue sApp = txQueue s ++ (data.drop written).take tc := by
          rw [hsApp]
          exact txQueue_append s _ h.1
        rw [hst, hq]
        have hcomp : (data.drop written).take (n - written) =
            (data.drop written).take tc ++
              (data.drop (written + tc)).take (n - (written + tc)) := by
          have harith : n - written = tc + (n - (written + tc)) := by omega
          rw [harith, List.take_add]
          have hdd : (data.drop written).drop tc = data.drop (written + tc) := by
            rw [List.drop_drop, Nat.add_comm]
          rw [hdd]
        rw [hcomp]
        simp only [List.append_assoc]
      case pos =>
        cases hbw : s.busyWait evs with
        | none =>
          rw [writeLoop_succ_none fuel s evs data written h1 h2 hbw] at heq
          cases heq
        | some p =>
          obtain ⟨s1, evs1⟩ := p
          obtain ⟨hf1, hnd1⟩ := flow_busyWait evs s s1 evs1 hnd hbw
          have hs1 : TxInv s1 := TxInv_busyWait evs s s1 evs1 h hbw
          rw [writeLoop_succ_some fuel s evs data written s1 evs1 h1 h2 hbw] at heq
          by_cases h3 : (!s1.connected) = true
          · rw [if_pos h3] at heq
            simp only [Option.some.injEq, Prod.mk.injEq] at heq
            obtain ⟨e1, e2x, e3x⟩ := heq
            refine ⟨by omega, ?_⟩
            rw [← e1]
            have hz : n - written = 0 := by omega
            rw [hz, List.take_zero, List.append_nil]
            exact hf1
          · rw [if_neg h3] at heq
            have hs2 : TxInv (s1._sendBuffer).1 := TxInv_sendBuffer s1 hs1
            have hf2 : sentTrace (s1._sendBuffer).1 ++ txQueue (s1._sendBuffer).1 =
                sentTrace s ++ txQueue s := (flow_sendBuffer s1).trans hf1
            by_cases h4 : (s1._sendBuffer).1.tx_buffer_size -
                ((s1._sendBuffer).1.tx_buffer.length -
                  (s1._sendBuffer).1.tx_buffer_head) = 0
            · rw [if_pos h4] at heq
              simp only [Option.some.injEq] at heq
              have h5 := writeTail_third (s1._sendBuffer).1 evs1 written
              have h6 := flow_writeTail (s1._sendBuffer).1 evs1 written
              rw [heq] at h5 h6
              simp only [Prod.snd] at h5
              refine ⟨by omega, ?_⟩
              have hz : n - written = 0 := by omega
              rw [hz, List.take_zero, List.append_nil]
              exact h6.trans hf2
            · rw [if_neg h4] at heq
              set tc := min ((s1._sendBuffer).1.tx_buffer_size -
                ((s1._sendBuffer).1.tx_buffer.length -
                  (s1._sendBuffer).1.tx_buffer_head)) (data.length - written) with htc
              set sApp := { (s1._sendBuffer).1 with
                tx_buffer := (s1._sendBuffer).1.tx_buffer ++
                  (data.drop written).take tc } with hsApp
              have hTx : TxInv sApp := by
                rw [hsApp]
                refine txinv_append (s1._sendBuffer).1 _ hs2 ?_
                simp only [List.length_take, List.length_drop]
                omega
              obtain ⟨ih1, ih2⟩ := ih sApp evs1 data (written + tc) s' evs' n hTx hnd1
                (by omega) heq
              refine ⟨by omega, ?_⟩
              rw [ih2]
              have hst : sentTrace sApp = sentTrace (s1._sendBuffer).1 := by
                rw [hsApp]
                rfl
              have hq : txQueue sApp = txQueue (s1._sendBuffer).1 ++
                  (data.drop written).take tc := by
                rw [hsApp]
                exact txQueue_append (s1._sendBuffer).1 _ hs2.1
              rw [hst, hq]
              have hcomp : (data.drop written).take (n - written) =
                  (data.drop written).take tc ++
                    (data.drop (written + tc)).take (n - (written + tc)) := by
                have harith : n - written = tc + (n - (written + tc)) := by omega
                rw [harith, List.take_add]
                have hdd : (data.drop written).drop tc = data.drop (written + tc) := by
                  rw [List.drop_drop, Nat.add_comm]
                rw [hdd]
              rw [hcomp, ← hf2]
              simp only [List.append_assoc]

/-- **C1.** `write(data, len)` on an unbound or unconnected adapter returns 0
immediately, with the whole state (TX buffer included) unchanged; otherwise,
whenever the call terminates it returns the total number of bytes copied into
the TX buffer, which is at most `len` — a short count, never an error code,
is the only failure signal (the return type carries no error value).  The
"returned count = bytes copied" content is stated as byte conservation: on
every disconnect-free run the combined transport-sent-plus-still-queued
stream grows by exactly `data.take n`, i.e. exactly the first `n` caller
bytes entered the TX buffer and nothing else did.  (A mid-call disconnect
discards the queued bytes outright — the `_onDisconnect` frame theorem — so
on such runs the copies are not recoverable from the final state and only
the short count `n ≤ len` remains observable, which is exactly the claim's
"short count is the failure signal".) -/
theorem write_contract (s : SyncClient) (data : List Nat) (evs : List Event) :
    ((s.client = none ∨ s.connected = false) →
        s.write data evs = some (s, evs, 0)) ∧
    (∀ s' evs' n, s.write data evs = some (s', evs', n) → n ≤ data.length) ∧
    (TxInv s → Event.discEv ∉ evs →
      ∀ s' evs' n, s.write data evs = some (s', evs', n) →
        sentTrace s' ++ txQueue s' =
          sentTrace s ++ txQueue s ++ data.take n) := by
  refine ⟨?_, ?_, ?_⟩
  · rintro (h | h) <;> simp [SyncClient.write, h]
  · intro s' evs' n heq
    simp only [SyncClient.write] at heq
    by_cases hcon : (s.client.isNone || !s.connected) = true
    · rw [if_pos hcon] at heq
      simp only [Option.some.injEq, Prod.mk.injEq] at heq
      omega
    · rw [if_neg hcon] at heq
      exact writeLoop_count (data.length + 1) s evs data 0 s' evs' n (by omega) heq
  · intro hTx hnd s' evs' n heq
    simp only [SyncClient.write] at heq
    by_cases hcon : (s.client.isNone || !s.connected) = true
    · rw [if_pos hcon] at heq
      simp only [Option.some.injEq, Prod.mk.injEq] at heq
      obtain ⟨e1, e2, e3⟩ := heq
      rw [← e1, ← e3]
      simp
    · rw [if_neg hcon] at heq
      have hfl := (writeLoop_flow (data.length + 1) s evs data 0 s' evs' n hTx hnd
        (by omega) heq).2
      rw [hfl, List.drop_zero, Nat.sub_zero]

theorem write_contract_witness :
    stDisc.write [5, 6] [] = some (stDisc, [], 0) ∧
    (2 : Nat) ≤ [5, 6].length ∧
    sentTrace stAfterWrite ++ txQueue stAfterWrite =
      sentTrace stRx ++ txQueue stRx ++ [5, 6].take 2 :=
  ⟨(write_contract stDisc [5, 6] []).1 (Or.inl rfl),
   (write_contract stRx [5, 6] []).2.1 stAfterWrite [] 2 (by decide),
   (write_contract stRx [5, 6] []).2.2 ⟨by decide, by decide⟩ (by decide)
     stAfterWrite [] 2 (by decide)⟩
